import Mathlib

/-!
Verification of the Payflow receivables-processing core against its
specification.  The definitions below are a shallow embedding of the Python
source under src/api/app: the security URL validator and paginated client
(worker/conta_azul_financial_client.py), the receipt downloader
(worker/receipt_downloader.py), the token-expiry logic (services_auth.py with
the TZDateTime persistence type of database.py), the checkpoint and
attachment-processing pipeline of worker/processor.py, and the secret cipher
wrapper (crypto.py).  Machine-level concerns (actual HTTP, SQL, SMTP,
hashing, AES) are abstracted at the same boundaries the source code uses:
collaborator results become explicit parameters, database tables become
lists, timestamps become integers (epoch seconds), byte strings become lists
of naturals.
-/

namespace Payflow

/-! ## IP-address parsing
Embedding of the hostname classification used by
ContaAzulFinancialClient._is_ip_address_safe, which delegates to Python's
ipaddress.ip_address.  The parser below follows CPython's grammar: an IPv4
dotted quad (decimal parts, no leading zeros, each at most 255) or an IPv6
address (hextets, at most one double-colon run, optional embedded IPv4
suffix, optional non-empty scope id after a percent sign). -/

/-- Value of a hexadecimal digit character, or none. -/
def hexVal (c : Char) : Option Nat :=
  if c.isDigit then some (c.toNat - 48)
  else if 'a' ≤ c ∧ c ≤ 'f' then some (c.toNat - 87)
  else if 'A' ≤ c ∧ c ≤ 'F' then some (c.toNat - 55)
  else none

/-- One decimal part of an IPv4 dotted quad: 1-3 digits, no leading zero,
value at most 255 (CPython ipaddress._parse_octet). -/
def parseIPv4Part (p : List Char) : Option Nat :=
  if p.length = 0 ∨ 3 < p.length then none
  else if !(p.all Char.isDigit) then none
  else if 1 < p.length ∧ p.head? = some '0' then none
  else
    let v := p.foldl (fun acc c => acc * 10 + (c.toNat - 48)) 0
    if v ≤ 255 then some v else none

/-- IPv4 dotted-quad parser (CPython IPv4Address constructor). -/
def parseIPv4 (h : List Char) : Option (Nat × Nat × Nat × Nat) :=
  match (h.splitOn '.').map parseIPv4Part with
  | [some a, some b, some c, some d] => some (a, b, c, d)
  | _ => none

/-- One hextet of an IPv6 address: 1-4 hex digits
(CPython ipaddress._parse_hextet). -/
def parseHextet (p : List Char) : Option Nat :=
  if p.length = 0 ∨ 4 < p.length then none
  else p.foldl (fun acc c =>
    match acc, hexVal c with
    | some a, some d => some (a * 16 + d)
    | _, _ => none) (some 0)

/-- Parse every part as a hextet. -/
def parseHextets (ps : List (List Char)) : Option (List Nat) :=
  ps.foldr (fun p acc =>
    match parseHextet p, acc with
    | some v, some vs => some (v :: vs)
    | _, _ => none) (some [])

/-- Indices of empty parts strictly inside the colon-split list; an interior
empty part marks the position of a double colon. -/
def interiorEmptyIndices (parts : List (List Char)) : List Nat :=
  (List.range parts.length).filter
    (fun i => decide (0 < i) && decide (i + 1 < parts.length) &&
      (parts.getD i ['x']).isEmpty)

/-- Assemble the eight 16-bit groups of an IPv6 address from its colon-split
parts, mirroring CPython ipaddress._ip_int_from_string.  When the address has
an embedded IPv4 suffix, the caller has already replaced it with two
non-empty placeholder parts and passes the two derived groups in extra. -/
def ipv6FromParts (parts : List (List Char)) (extra : List Nat) :
    Option (List Nat) :=
  let n := parts.length
  match interiorEmptyIndices parts with
  | [] =>
    if parts.head? = some [] ∨ parts.getLast? = some [] then none
    else if n ≠ 8 then none
    else
      match parseHextets (parts.take (n - extra.length)) with
      | some hs => some (hs ++ extra)
      | none => none
  | [i] =>
    let hiRaw := i
    let loRaw := n - i - 1
    let hiCount : Option Nat :=
      if parts.head? = some [] then (if hiRaw = 1 then some 0 else none)
      else some hiRaw
    let loCount : Option Nat :=
      if parts.getLast? = some [] then (if loRaw = 1 then some 0 else none)
      else some loRaw
    match hiCount, loCount with
    | some hi, some lo =>
      if 7 < hi + lo then none
      else
        match parseHextets (parts.take hi),
              parseHextets ((parts.drop (n - lo)).take (lo - extra.length)) with
        | some hs, some ls =>
          some (hs ++ List.replicate (8 - hi - lo) 0 ++ ls ++ extra)
        | _, _ => none
    | _, _ => none
  | _ => none

/-- IPv6 parser without the scope id, including the embedded IPv4 suffix
(CPython pops the dotted-quad last part and appends its two hextets). -/
def parseIPv6NoZone (h : List Char) : Option (List Nat) :=
  let parts0 := h.splitOn ':'
  if parts0.length < 3 then none
  else if (parts0.getLastD []).contains '.' then
    match parseIPv4 (parts0.getLastD []) with
    | some (a, b, c, d) =>
      ipv6FromParts (parts0.dropLast ++ [['0'], ['0']])
        [a * 256 + b, c * 256 + d]
    | none => none
  else ipv6FromParts parts0 []

/-- IPv6 parser: an optional scope id follows a percent sign and must be
non-empty and free of further percent signs (CPython _split_scope_id). -/
def parseIPv6 (h : List Char) : Option (List Nat) :=
  match h.splitOn '%' with
  | [addr] => parseIPv6NoZone addr
  | [addr, scope] => if scope.isEmpty then none else parseIPv6NoZone addr
  | _ => none

/-- A parsed literal IP address: dotted quad or eight 16-bit groups. -/
inductive IPAddr where
  | v4 (a b c d : Nat)
  | v6 (groups : List Nat)
deriving DecidableEq

/-- Python ipaddress.ip_address: try IPv4 first, then IPv6. -/
def parseIP (h : List Char) : Option IPAddr :=
  match parseIPv4 h with
  | some (a, b, c, d) => some (.v4 a b c d)
  | none => (parseIPv6 h).map .v6

/-! ## IP classification
The four predicates checked by _is_ip_address_safe, following the network
lists of CPython's ipaddress module. -/

/-- is_loopback: 127.0.0.0/8 for IPv4, ::1 for IPv6. -/
def ipIsLoopback : IPAddr → Bool
  | .v4 a _ _ _ => a == 127
  | .v6 gs => gs == [0, 0, 0, 0, 0, 0, 0, 1]

/-- is_private: CPython's private-network list. -/
def ipIsPrivate : IPAddr → Bool
  | .v4 a b c d =>
    a == 0 || a == 10 || a == 127 || (a == 169 && b == 254) ||
    (a == 172 && 16 ≤ b && b ≤ 31) ||
    (a == 192 && b == 0 && c == 0 && d ≤ 7) ||
    (a == 192 && b == 0 && c == 0 && (d == 170 || d == 171)) ||
    (a == 192 && b == 0 && c == 2) || (a == 192 && b == 168) ||
    (a == 198 && (b == 18 || b == 19)) || (a == 198 && b == 51 && c == 100) ||
    (a == 203 && b == 0 && c == 113) || 240 ≤ a
  | .v6 gs =>
    let g1 := gs.headD 0
    let g2 := gs.getD 1 0
    gs == [0, 0, 0, 0, 0, 0, 0, 1] || gs == [0, 0, 0, 0, 0, 0, 0, 0] ||
    gs.take 6 == [0, 0, 0, 0, 0, 65535] || gs.take 4 == [256, 0, 0, 0] ||
    (g1 == 8193 && g2 < 512) || (g1 == 8193 && g2 == 3512) ||
    (64512 ≤ g1 && g1 ≤ 65023) || (65152 ≤ g1 && g1 ≤ 65215)

/-- is_multicast: 224.0.0.0/4 for IPv4, ff00::/8 for IPv6. -/
def ipIsMulticast : IPAddr → Bool
  | .v4 a _ _ _ => 224 ≤ a && a ≤ 239
  | .v6 gs => 65280 ≤ gs.headD 0

/-- is_reserved: 240.0.0.0/4 for IPv4; the union of CPython's IPv6 reserved
networks is the first-group ranges [0, 8192) and [16384, 65152). -/
def ipIsReserved : IPAddr → Bool
  | .v4 a _ _ _ => 240 ≤ a
  | .v6 gs =>
    let g1 := gs.headD 0
    g1 < 8192 || (16384 ≤ g1 && g1 < 65152)

/-- ContaAzulFinancialClient._is_ip_address_safe: a hostname that parses as a
literal IP address is safe only if it is none of loopback, private,
multicast, reserved; a hostname that is not an IP address is safe. -/
def isIpAddressSafe (hostname : List Char) : Bool :=
  match parseIP hostname with
  | none => true
  | some ip =>
    if ipIsLoopback ip then false
    else if ipIsPrivate ip then false
    else if ipIsMulticast ip then false
    else if ipIsReserved ip then false
    else true

/-! ## SSRF URL validation
Embedding of ContaAzulFinancialClient._validate_receipt_url.  A URL is
represented after urlparse: its scheme and its optional hostname, both as
character lists (urlparse lowercases the hostname; the remaining URL
components are not consulted by the validator). -/

/-- ALLOWED_RECEIPT_DOMAINS of the financial client. -/
def allowedReceiptDomains : List (List Char) :=
  ["api.contaazul.com".data, "api-v2.contaazul.com".data,
   "attachments.contaazul.com".data, "cdn.contaazul.com".data,
   "static.contaazul.com".data]

/-- The allow-list check: hostname equals a listed domain or ends with a dot
followed by a listed domain. -/
def domainAllowed (hostname : List Char) : Bool :=
  allowedReceiptDomains.any (fun d =>
    hostname == d || List.isSuffixOf ('.' :: d) hostname)

/-- A URL as seen by the validator after urlparse. -/
structure ParsedUrl where
  scheme : List Char
  hostname : Option (List Char)
deriving DecidableEq

/-- ContaAzulFinancialClient._validate_receipt_url: require the https scheme,
a present hostname, an allow-listed hostname, and a safe (non-IP or
public-IP) hostname, in that order. -/
def validateReceiptUrl (u : ParsedUrl) : Bool :=
  if u.scheme ≠ "https".data then false
  else
    match u.hostname with
    | none => false
    | some h =>
      if !(domainAllowed h) then false
      else if !(isIpAddressSafe h) then false
      else true

/-! ## Paginated receivables fetch
Embedding of the pagination loop of ContaAzulFinancialClient.get_receivables.
The provider is abstracted as the function from a page number to the item
list extracted from that page's response; query-parameter construction does
not influence the loop and is elided.  The loop starts at page 1, stops on an
empty page, on a page shorter than the page size, or when the incremented
page counter exceeds 100, and otherwise accumulates items in order. -/

/-- One iteration per fuel unit; the fuel only bounds recursion and is chosen
so that the in-loop page cap fires first.  Returns the accumulated items and
the list of requested page numbers. -/
def getReceivablesLoop {α : Type} (pages : Nat → List α) (pageSize : Nat) :
    Nat → Nat → List α × List Nat
  | _, 0 => ([], [])
  | currentPage, fuel + 1 =>
    let items := pages currentPage
    if items.length = 0 then ([], [currentPage])
    else if items.length < pageSize then (items, [currentPage])
    else if 100 < currentPage + 1 then (items, [currentPage])
    else
      let rest := getReceivablesLoop pages pageSize (currentPage + 1) fuel
      (items ++ rest.1, currentPage :: rest.2)

/-- ContaAzulFinancialClient.get_receivables, pagination part. -/
def getReceivables {α : Type} (pages : Nat → List α) (pageSize : Nat) :
    List α × List Nat :=
  getReceivablesLoop pages pageSize 1 100

/-- A page at which the pagination loop stops: empty, or shorter than the
requested page size. -/
def pageStops {α : Type} (pages : Nat → List α) (pageSize : Nat) (j : Nat) :
    Prop :=
  (pages j).length = 0 ∨ (pages j).length < pageSize

/-! ## HTTP request retry policy
Embedding of ContaAzulFinancialClient._request under its tenacity decorator:
stop_after_attempt(5), wait_exponential(multiplier=1, min=1, max=16), retry
only on RateLimitError (raised exactly for HTTP status 429), reraise.  A
response with status at least 400 makes raise_for_status propagate an HTTP
status error; any other response is returned.  The provider is abstracted as
the function from the attempt number (starting at 1) to that attempt's
response. -/

/-- An HTTP response: status code and an abstract body. -/
structure HttpResp where
  code : Nat
  body : Nat
deriving DecidableEq

/-- Result of the retrying request: the attempts field counts requests
actually issued. -/
inductive ReqOutcome where
  | success (body : Nat) (attempts : Nat)
  | httpError (code : Nat) (attempts : Nat)
  | rateLimited (attempts : Nat)
deriving DecidableEq

/-- tenacity wait_exponential: clamp (multiplier * 2 ^ attemptNumber) between
min and max, where attemptNumber is 1 for the wait after the first attempt. -/
def tenacityWaitExp (multiplier minW maxW attemptNumber : Nat) : Nat :=
  max (max 0 minW) (min (multiplier * 2 ^ attemptNumber) maxW)

/-- The wait applied after the n-th failed attempt with the configured
multiplier=1, min=1, max=16. -/
def requestWait (n : Nat) : Nat := tenacityWaitExp 1 1 16 n

/-- The retry loop: remaining is the number of retries still allowed.
Returns the outcome and the list of backoff waits performed. -/
def requestLoop (responses : Nat → HttpResp) :
    Nat → Nat → ReqOutcome × List Nat
  | attempt, 0 =>
    let r := responses attempt
    if r.code = 429 then (.rateLimited attempt, [])
    else if 400 ≤ r.code then (.httpError r.code attempt, [])
    else (.success r.body attempt, [])
  | attempt, remaining + 1 =>
    let r := responses attempt
    if r.code = 429 then
      let rest := requestLoop responses (attempt + 1) remaining
      (rest.1, requestWait attempt :: rest.2)
    else if 400 ≤ r.code then (.httpError r.code attempt, [])
    else (.success r.body attempt, [])

/-- ContaAzulFinancialClient._request: first attempt plus at most four
retries (stop_after_attempt(5)). -/
def clientRequest (responses : Nat → HttpResp) : ReqOutcome × List Nat :=
  requestLoop responses 1 4

/-! ## Secret cipher
Embedding of CryptoManager (crypto.py).  The wrapper delegates to the Fernet
primitive of the cryptography library, which is not part of the repository.
Modelled from the spec: authenticated symmetric encryption keyed by the
32-byte master key, a fresh random nonce per encryption call, tampering and
foreign-key ciphertext detected on decryption, which then fails with a
distinguishable error.  Randomness is made explicit: the nonce drawn for a
call is a parameter, and distinct calls draw distinct nonces. -/

/-- A well-formed Fernet token: the key it was produced under, the random
nonce of the call, and the enclosed plaintext bytes. -/
structure FernetToken where
  key : Nat
  nonce : Nat
  plaintext : List Nat
deriving DecidableEq

/-- Input to decrypt: either a well-formed token or any other byte string. -/
inductive CipherInput where
  | token (t : FernetToken)
  | garbage (bytes : List Nat)
deriving DecidableEq

/-- The distinguishable decryption failure (Fernet InvalidToken, re-raised by
CryptoManager.decrypt as a runtime error). -/
inductive CryptoError where
  | invalidToken
deriving DecidableEq

/-- CryptoManager: holds the decoded 32-byte master key. -/
structure CryptoManager where
  key : Nat
deriving DecidableEq

/-- CryptoManager.encrypt with the call's random nonce made explicit. -/
def CryptoManager.encrypt (m : CryptoManager) (nonce : Nat)
    (plaintext : List Nat) : CipherInput :=
  .token ⟨m.key, nonce, plaintext⟩

/-- CryptoManager.decrypt: authenticated decryption, failing on garbage and
on tokens under a different key. -/
def CryptoManager.decrypt (m : CryptoManager) (c : CipherInput) :
    Except CryptoError (List Nat) :=
  match c with
  | .token t => if t.key = m.key then .ok t.plaintext else .error .invalidToken
  | .garbage _ => .error .invalidToken

/-! ## Datetimes and token expiry
Embedding of ContaAzulAuthService.is_token_expired (services_auth.py) and of
the TZDateTime persistence type (database.py).  A Python datetime is a
wall-clock reading in seconds plus an optional UTC offset (none = naive).
Comparing a naive and an aware datetime raises TypeError; the persistence
type normalizes every value to UTC-aware on write and on read. -/

/-- A Python datetime: wall-clock seconds and optional UTC offset seconds. -/
structure PyDateTime where
  wall : Int
  tzOffset : Option Int
deriving DecidableEq

/-- The absolute instant an aware datetime denotes (wall minus offset); for a
naive datetime this is just a reading of its wall clock. -/
def PyDateTime.instant (d : PyDateTime) : Int := d.wall - d.tzOffset.getD 0

/-- datetime.replace(tzinfo=utc): keep the wall reading, set the zone. -/
def PyDateTime.replaceUtc (d : PyDateTime) : PyDateTime :=
  { d with tzOffset := some 0 }

/-- datetime.astimezone(utc) on an aware value: keep the instant. -/
def PyDateTime.astimezoneUtc (d : PyDateTime) : PyDateTime :=
  ⟨d.instant, some 0⟩

/-- The Python ordering a >= b on datetimes: defined on two naive or two
aware values, a TypeError (modelled as the error case) on a mixed pair. -/
def pyGe (a b : PyDateTime) : Except Unit Bool :=
  match a.tzOffset, b.tzOffset with
  | none, none => .ok (decide (b.wall ≤ a.wall))
  | some _, some _ => .ok (decide (b.instant ≤ a.instant))
  | _, _ => .error ()

/-- TZDateTime.process_bind_param: naive values are declared UTC, aware
non-UTC values are converted to UTC, UTC values pass through. -/
def tzProcessBindParam (v : PyDateTime) : PyDateTime :=
  match v.tzOffset with
  | none => v.replaceUtc
  | some off => if off = 0 then v else v.astimezoneUtc

/-- TZDateTime.process_result_value: the same normalization applied when a
stored value is read back. -/
def tzProcessResultValue (v : PyDateTime) : PyDateTime :=
  match v.tzOffset with
  | none => v.replaceUtc
  | some off => if off = 0 then v else v.astimezoneUtc

/-- ContaAzulAuthService.is_token_expired: now(UTC) >= token.expires_at.  The
expires_at argument is the value as read from the credential row, i.e. after
tzProcessResultValue. -/
def isTokenExpired (nowUtc : PyDateTime) (expiresAt : PyDateTime) :
    Except Unit Bool :=
  pyGe nowUtc expiresAt

/-! ## Financial checkpoints
Embedding of FinancialProcessor._get_or_create_checkpoint,
_calculate_changed_since and _update_checkpoint (processor.py).  The
checkpoint table is a list of rows; timestamps are epoch seconds. -/

/-- A financial_checkpoints row (columns used by the processor). -/
structure FinancialCheckpoint where
  accountId : Nat
  lastProcessedChangedAt : Option Int
deriving DecidableEq

/-- Thirty days in seconds, the initial lookback window. -/
def thirtyDays : Int := 30 * 86400

/-- FinancialProcessor._get_or_create_checkpoint: return the account's row,
or create one dated now minus 30 days and commit it immediately. -/
def getOrCreateCheckpoint (nowT : Int) (accountId : Nat)
    (db : List FinancialCheckpoint) :
    FinancialCheckpoint × List FinancialCheckpoint :=
  match db.find? (fun c => c.accountId == accountId) with
  | some cp => (cp, db)
  | none =>
    let cp : FinancialCheckpoint := ⟨accountId, some (nowT - thirtyDays)⟩
    (cp, db ++ [cp])

/-- FinancialProcessor._calculate_changed_since: the stored watermark minus
the safety window in minutes, or now minus 30 days when unset. -/
def calculateChangedSince (nowT : Int) (safetyWindowMinutes : Int)
    (cp : FinancialCheckpoint) : Int :=
  match cp.lastProcessedChangedAt with
  | none => nowT - thirtyDays
  | some t => t - safetyWindowMinutes * 60

/-- FinancialProcessor._update_checkpoint: set the account's watermark to now
and commit. -/
def updateCheckpoint (nowT : Int) (accountId : Nat)
    (db : List FinancialCheckpoint) : List FinancialCheckpoint :=
  db.map (fun c =>
    if c.accountId == accountId then { c with lastProcessedChangedAt := some nowT }
    else c)

/-- The watermark stored for an account: none when no row exists. -/
def checkpointValue (db : List FinancialCheckpoint) (accountId : Nat) :
    Option (Option Int) :=
  (db.find? (fun c => c.accountId == accountId)).map
    (fun c => c.lastProcessedChangedAt)

/-! ## One polling cycle per account
Embedding of FinancialProcessor.process_account.  The collaborators are
abstracted at the call boundary: whether the credential row exists, whether
its ciphertext decrypts, whether it is expired and whether the refresh
succeeds, and the receivables fetch result (none models a raised fetch
error).  Per-receivable processing cannot touch the checkpoint table (the
source functions below process_account only read and write sent_receipts and
email_logs), so only its success flag is kept. -/

/-- The abstracted collaborator results for one cycle. -/
structure CycleEnv where
  tokenFound : Bool
  decryptOk : Bool
  tokenExpired : Bool
  refreshOk : Bool
  fetchResult : Option (List Nat)
  receivableOk : Nat → Bool

/-- FinancialProcessor.process_account: returns the (processed, errors) pair
and the checkpoint table after the cycle. -/
def processAccountCycle (env : CycleEnv) (nowT : Int) (accountId : Nat)
    (db : List FinancialCheckpoint) :
    (Nat × Nat) × List FinancialCheckpoint :=
  if !env.tokenFound then ((0, 1), db)
  else if !env.decryptOk then ((0, 1), db)
  else if env.tokenExpired && !env.refreshOk then ((0, 1), db)
  else
    let cpDb := getOrCreateCheckpoint nowT accountId db
    match env.fetchResult with
    | none => ((0, 1), cpDb.2)
    | some [] => ((0, 0), updateCheckpoint nowT accountId cpDb.2)
    | some rs =>
      let processed := (rs.filter env.receivableOk).length
      ((processed, rs.length - processed),
       updateCheckpoint nowT accountId cpDb.2)

/-- A sequence of polling cycles, each with its own collaborator results and
its own reading of the clock. -/
def runCycles (accountId : Nat) :
    List (CycleEnv × Int) → List FinancialCheckpoint →
    List FinancialCheckpoint
  | [], db => db
  | (env, t) :: rest, db =>
    runCycles accountId rest (processAccountCycle env t accountId db).2

/-! ## Receipt validation
Embedding of ReceiptDownloader.validate_receipt (receipt_downloader.py):
non-empty, the PDF magic marker, and size within [1KB, 100MB]. -/

/-- The four bytes of the PDF magic marker. -/
def pdfMagic : List Nat := [37, 80, 68, 70]

/-- ReceiptDownloader.validate_receipt. -/
def validateReceipt (pdfBytes : List Nat) : Bool :=
  if pdfBytes.length = 0 then false
  else if !(List.isPrefixOf pdfMagic pdfBytes) then false
  else if pdfBytes.length < 1024 then false
  else if 100 * 1024 * 1024 < pdfBytes.length then false
  else true

/-! ## Idempotency ledger and the attachment pipeline
Embedding of FinancialProcessor._process_attachment,
_is_receipt_already_sent and _register_sent_receipt, with the sent_receipts
table as a list of rows.  The unique constraint
uq_sent_receipt_idempotency on (account_id, installment_id, attachment_url)
makes the insert fail with an integrity error when a row for the triple
exists; _register_sent_receipt catches the failure and rolls back.  The
non-key columns (payment id, hash, metadata, timestamps) do not influence
any claim and are elided except for the recipient.  To express the race with
a concurrent processor, the environment may inject one row committed by the
other processor between our idempotency lookup and our insert. -/

/-- A sent_receipts row (key columns and recipient). -/
structure LedgerRow where
  accountId : Nat
  installmentId : Nat
  attachmentUrl : Nat
  doctorEmail : Nat
deriving DecidableEq

/-- Whether a row carries the given (account, installment, attachment URL)
triple. -/
def rowMatches (aid iid url : Nat) (r : LedgerRow) : Bool :=
  r.accountId == aid && r.installmentId == iid && r.attachmentUrl == url

/-- Whether a row for the triple exists (the unique-key point lookup). -/
def hasTriple (ledger : List LedgerRow) (aid iid url : Nat) : Bool :=
  ledger.any (rowMatches aid iid url)

/-- Number of rows for the triple. -/
def tripleCount (ledger : List LedgerRow) (aid iid url : Nat) : Nat :=
  (ledger.filter (rowMatches aid iid url)).length

/-- Database-level failures surfaced to the pipeline. -/
inductive DbError where
  | integrityError
deriving DecidableEq

/-- The raw insert-and-commit of a sent_receipts row: the unique constraint
rejects a duplicate triple. -/
def dbInsertReceipt (ledger : List LedgerRow) (row : LedgerRow) :
    Except DbError (List LedgerRow) :=
  if hasTriple ledger row.accountId row.installmentId row.attachmentUrl then
    .error .integrityError
  else .ok (ledger ++ [row])

/-- FinancialProcessor._register_sent_receipt: attempt the insert; on any
exception log, roll back and return normally. -/
def registerSentReceipt (ledger : List LedgerRow) (row : LedgerRow) :
    List LedgerRow :=
  match dbInsertReceipt ledger row with
  | .ok l => l
  | .error _ => ledger

/-- FinancialProcessor._is_receipt_already_sent: the point lookup, with any
query exception caught and reported as a plain False. -/
def isReceiptAlreadySent (queryFails : Bool) (ledger : List LedgerRow)
    (aid iid url : Nat) : Bool :=
  if queryFails then false else hasTriple ledger aid iid url

/-- The attachment and installment fields read by _process_attachment;
each field mirrors a dict.get that may be absent. -/
structure AttachmentInput where
  installmentId : Option Nat
  attachmentId : Option Nat
  url : Option Nat
deriving DecidableEq

/-- The abstracted collaborator results for one _process_attachment call:
whether the ledger query raises, the downloader result (bytes and filename),
the resolved recipient, the mailer verdict, and an optional row committed by
a concurrent processor between our lookup and our insert. -/
structure AttachmentEnv where
  queryFails : Bool
  downloadResult : Option (List Nat × Nat)
  doctorEmail : Option Nat
  mailerOk : Bool
  concurrentRow : Option LedgerRow
deriving DecidableEq

/-- The observable steps of one _process_attachment call, in order. -/
inductive PipelineEvent where
  | ledgerCheck
  | download
  | validateBytes
  | sendAttempt (success : Bool)
  | recordReceipt
deriving DecidableEq

/-- The mutable state the pipeline touches: the ledger and the number of
successful email dispatches. -/
structure PipelineState where
  ledger : List LedgerRow
  emailsSent : Nat
deriving DecidableEq

/-- FinancialProcessor._process_attachment: missing-id and missing-url guard,
idempotency lookup, download, validation, recipient resolution, send, and on
send success the ledger record; on send failure only the audit log.  Returns
the new state and the trace of steps taken. -/
def processAttachment (env : AttachmentEnv) (accountId : Nat)
    (att : AttachmentInput) (s : PipelineState) :
    PipelineState × List PipelineEvent :=
  match att.installmentId, att.attachmentId with
  | some iid, some _ =>
    match att.url with
    | none => (s, [])
    | some url =>
      if isReceiptAlreadySent env.queryFails s.ledger accountId iid url then
        (s, [.ledgerCheck])
      else
        match env.downloadResult with
        | none => (s, [.ledgerCheck, .download])
        | some (pdfBytes, _) =>
          if !(validateReceipt pdfBytes) then
            (s, [.ledgerCheck, .download, .validateBytes])
          else
            match env.doctorEmail with
            | none => (s, [.ledgerCheck, .download, .validateBytes])
            | some em =>
              if env.mailerOk then
                let ledgerAtInsert := s.ledger ++
                  (match env.concurrentRow with
                   | some r => [r]
                   | none => [])
                let newLedger :=
                  registerSentReceipt ledgerAtInsert ⟨accountId, iid, url, em⟩
                (⟨newLedger, s.emailsSent + 1⟩,
                 [.ledgerCheck, .download, .validateBytes,
                  .sendAttempt true, .recordReceipt])
              else
                (s, [.ledgerCheck, .download, .validateBytes,
                     .sendAttempt false])
  | _, _ => (s, [])

/-- The per-attachment loop of _process_installment: every attachment is
processed in order; a failure inside one call never aborts the siblings. -/
def processAttachments (env : AttachmentEnv) (accountId : Nat) :
    List AttachmentInput → PipelineState → PipelineState
  | [], s => s
  | a :: rest, s =>
    processAttachments env accountId rest
      (processAttachment env accountId a s).1

/-! ## Helper lemmas on the ledger -/

theorem tripleCount_append (l1 l2 : List LedgerRow) (a i u : Nat) :
    tripleCount (l1 ++ l2) a i u = tripleCount l1 a i u + tripleCount l2 a i u := by
  simp [tripleCount, List.filter_append]

theorem tripleCount_eq_zero (l : List LedgerRow) (a i u : Nat)
    (h : hasTriple l a i u = false) : tripleCount l a i u = 0 := by
  induction l with
  | nil => rfl
  | cons hd tl ih =>
    simp only [hasTriple, List.any_cons, Bool.or_eq_false_iff] at h
    simp only [tripleCount, List.filter_cons, h.1, Bool.false_eq_true,
      if_false]
    exact ih (by simpa [hasTriple] using h.2)

theorem hasTriple_append_self (l : List LedgerRow) (a i u e : Nat) :
    hasTriple (l ++ [⟨a, i, u, e⟩]) a i u = true := by
  simp [hasTriple, List.any_append, rowMatches]

theorem tripleCount_singleton_self (a i u e : Nat) :
    tripleCount [⟨a, i, u, e⟩] a i u = 1 := by
  simp [tripleCount, List.filter_cons, rowMatches]

/-- Claim C4: for every string s, decrypt (encrypt s) = s; two calls of
encrypt on the same plaintext (drawing distinct random nonces) return two
different ciphertexts; and decrypt applied to input that is not a ciphertext
produced under the current key fails with a distinguishable error and never
returns a value. -/
theorem c4_encryption_roundtrip :
    (∀ (m : CryptoManager) (nonce : Nat) (s : List Nat),
      m.decrypt (m.encrypt nonce s) = .ok s) ∧
    (∀ (m : CryptoManager) (n1 n2 : Nat) (s : List Nat), n1 ≠ n2 →
      m.encrypt n1 s ≠ m.encrypt n2 s) ∧
    (∀ (m : CryptoManager) (c : CipherInput),
      (∀ t : FernetToken, c = .token t → t.key ≠ m.key) →
      m.decrypt c = .error .invalidToken) := by
  refine ⟨?_, ?_, ?_⟩
  · intro m nonce s
    simp [CryptoManager.decrypt, CryptoManager.encrypt]
  · intro m n1 n2 s h hc
    apply h
    simpa [CryptoManager.encrypt, FernetToken.mk.injEq] using hc
  · intro m c h
    cases c with
    | token t => simp [CryptoManager.decrypt, h t rfl]
    | garbage b => rfl

/-- Witness for C4 at a concrete key, nonce pair and plaintext. -/
theorem c4_encryption_roundtrip_witness :
    (0 : Nat) ≠ 1 ∧
    CryptoManager.encrypt ⟨5⟩ 0 [1, 2] ≠ CryptoManager.encrypt ⟨5⟩ 1 [1, 2] :=
  ⟨by decide, c4_encryption_roundtrip.2.1 ⟨5⟩ 0 1 [1, 2] (by decide)⟩

/-- Claim C8: is_token_expired returns true iff now(UTC) >= the credential's
expires_at (a credential expiring one hour in the future reports not
expired, one that expired one second ago reports expired), and the
comparison never raises on a naive stored expiry timestamp because expiry
timestamps are normalized to UTC-aware on every read and write through the
persistence boundary. -/
theorem c8_token_expiry :
    (∀ (t : Int) (e : PyDateTime),
      isTokenExpired ⟨t, some 0⟩ (tzProcessResultValue e) =
        .ok (decide ((tzProcessResultValue e).instant ≤ t))) ∧
    (∀ v : PyDateTime, (tzProcessBindParam v).tzOffset = some 0 ∧
      (tzProcessResultValue v).tzOffset = some 0) ∧
    (∀ t : Int, isTokenExpired ⟨t, some 0⟩ ⟨t + 3600, some 0⟩ = .ok false) ∧
    (∀ t : Int, isTokenExpired ⟨t, some 0⟩ ⟨t - 1, some 0⟩ = .ok true) := by
  refine ⟨?_, ?_, ?_, ?_⟩
  · rintro t ⟨w, tz⟩
    cases tz with
    | none =>
      simp [isTokenExpired, pyGe, tzProcessResultValue, PyDateTime.replaceUtc,
        PyDateTime.instant]
    | some off =>
      by_cases hoff : off = 0 <;>
        simp [isTokenExpired, pyGe, tzProcessResultValue,
          PyDateTime.astimezoneUtc, PyDateTime.instant, hoff]
  · rintro ⟨w, tz⟩
    cases tz with
    | none =>
      simp [tzProcessBindParam, tzProcessResultValue, PyDateTime.replaceUtc]
    | some off =>
      by_cases hoff : off = 0 <;>
        simp [tzProcessBindParam, tzProcessResultValue,
          PyDateTime.astimezoneUtc, PyDateTime.replaceUtc, hoff]
  · intro t
    simp [isTokenExpired, pyGe, PyDateTime.instant]
  · intro t
    simp [isTokenExpired, pyGe, PyDateTime.instant]

/-- Claim C9: the changed-since computation returns the stored watermark
minus the configured safety window when the watermark is set, and now(UTC)
minus 30 days otherwise; getOrCreate returns the existing checkpoint row for
the account, or creates one dated now(UTC) minus 30 days and persists it
immediately. -/
theorem c9_changed_since_get_or_create :
    (∀ (nowT w : Int) (cp : FinancialCheckpoint) (t : Int),
      cp.lastProcessedChangedAt = some t →
      calculateChangedSince nowT w cp = t - w * 60) ∧
    (∀ (nowT w : Int) (cp : FinancialCheckpoint),
      cp.lastProcessedChangedAt = none →
      calculateChangedSince nowT w cp = nowT - thirtyDays) ∧
    (∀ (nowT : Int) (aid : Nat) (db : List FinancialCheckpoint)
      (cp : FinancialCheckpoint),
      db.find? (fun c => c.accountId == aid) = some cp →
      getOrCreateCheckpoint nowT aid db = (cp, db)) ∧
    (∀ (nowT : Int) (aid : Nat) (db : List FinancialCheckpoint),
      db.find? (fun c => c.accountId == aid) = none →
      getOrCreateCheckpoint nowT aid db =
        (⟨aid, some (nowT - thirtyDays)⟩,
         db ++ [⟨aid, some (nowT - thirtyDays)⟩])) := by
  refine ⟨?_, ?_, ?_, ?_⟩
  · intro nowT w cp t h
    simp [calculateChangedSince, h]
  · intro nowT w cp h
    simp [calculateChangedSince, h]
  · intro nowT aid db cp h
    simp [getOrCreateCheckpoint, h]
  · intro nowT aid db h
    simp [getOrCreateCheckpoint, h]

/-- Witness for C9 at a concrete checkpoint and clock. -/
theorem c9_changed_since_get_or_create_witness :
    (⟨0, some 600⟩ : FinancialCheckpoint).lastProcessedChangedAt = some 600 ∧
    calculateChangedSince 0 2 ⟨0, some 600⟩ = 600 - 2 * 60 :=
  ⟨rfl, c9_changed_since_get_or_create.1 0 2 ⟨0, some 600⟩ 600 rfl⟩

/-- Claim C5: when the ledger insert hits the unique constraint on
(account_id, installment_id, attachment_url) because a concurrent processor
already inserted the row, the record operation treats the violation as
already delivered rather than as an error: it does not raise, the processing
pipeline continues with siblings, and exactly one ledger row for the triple
exists afterwards. -/
theorem c5_unique_violation_is_noop :
    (∀ (l : List LedgerRow) (row : LedgerRow),
      hasTriple l row.accountId row.installmentId row.attachmentUrl = true →
      dbInsertReceipt l row = .error .integrityError ∧
      registerSentReceipt l row = l ∧
      tripleCount (registerSentReceipt l row) row.accountId
          row.installmentId row.attachmentUrl =
        tripleCount l row.accountId row.installmentId row.attachmentUrl) ∧
    (∀ (aid iid attid url em fn : Nat) (bytes : List Nat) (crow : LedgerRow)
      (s : PipelineState),
      validateReceipt bytes = true →
      crow.accountId = aid → crow.installmentId = iid →
      crow.attachmentUrl = url →
      hasTriple s.ledger aid iid url = false →
      (processAttachment ⟨false, some (bytes, fn), some em, true, some crow⟩
          aid ⟨some iid, some attid, some url⟩ s).1.ledger =
        s.ledger ++ [crow] ∧
      tripleCount (processAttachment
          ⟨false, some (bytes, fn), some em, true, some crow⟩
          aid ⟨some iid, some attid, some url⟩ s).1.ledger aid iid url = 1) ∧
    (∀ (env : AttachmentEnv) (aid : Nat) (a : AttachmentInput)
      (rest : List AttachmentInput) (s : PipelineState),
      processAttachments env aid (a :: rest) s =
        processAttachments env aid rest (processAttachment env aid a s).1) := by
  refine ⟨?_, ?_, ?_⟩
  · intro l row h
    refine ⟨by simp [dbInsertReceipt, h], ?_, ?_⟩ <;>
      simp [registerSentReceipt, dbInsertReceipt, h]
  · intro aid iid attid url em fn bytes crow s hv h1 h2 h3 h4
    obtain ⟨ca, ci, cu, ce⟩ := crow
    subst h1; subst h2; subst h3
    constructor
    · simp [processAttachment, isReceiptAlreadySent, h4, hv,
        registerSentReceipt, dbInsertReceipt, hasTriple_append_self]
    · simp only [processAttachment, isReceiptAlreadySent, h4, hv,
        registerSentReceipt, dbInsertReceipt, hasTriple_append_self,
        Bool.not_true, Bool.false_eq_true, if_false, if_true]
      rw [tripleCount_append, tripleCount_eq_zero s.ledger _ _ _ h4,
        tripleCount_singleton_self]
  · intro env aid a rest s
    rfl

/-- Witness for C5: a concrete ledger already holding the triple. -/
theorem c5_unique_violation_is_noop_witness :
    hasTriple [⟨1, 2, 3, 4⟩] 1 2 3 = true ∧
    registerSentReceipt [⟨1, 2, 3, 4⟩] ⟨1, 2, 3, 9⟩ = [⟨1, 2, 3, 4⟩] :=
  ⟨by decide,
   (c5_unique_violation_is_noop.1 [⟨1, 2, 3, 4⟩] ⟨1, 2, 3, 9⟩ (by decide)).2.1⟩

/-- Claim C10: if the idempotency lookup itself raises,
_is_receipt_already_sent returns False instead of propagating the error, so
the attachment is treated as not yet delivered and the pipeline proceeds to
download and send; a ledger read failure can therefore cause a duplicate
email for an already-delivered receipt. -/
theorem c10_lookup_failure_fails_open :
    (∀ (l : List LedgerRow) (a i u : Nat),
      isReceiptAlreadySent true l a i u = false) ∧
    (∀ (aid iid attid url em fn : Nat) (bytes : List Nat)
      (s : PipelineState),
      validateReceipt bytes = true →
      hasTriple s.ledger aid iid url = true →
      PipelineEvent.download ∈
        (processAttachment ⟨true, some (bytes, fn), some em, true, none⟩ aid
          ⟨some iid, some attid, some url⟩ s).2 ∧
      (processAttachment ⟨true, some (bytes, fn), some em, true, none⟩ aid
          ⟨some iid, some attid, some url⟩ s).1.emailsSent =
        s.emailsSent + 1 ∧
      (processAttachment ⟨true, some (bytes, fn), some em, true, none⟩ aid
          ⟨some iid, some attid, some url⟩ s).1.ledger = s.ledger) := by
  refine ⟨?_, ?_⟩
  · intro l a i u
    simp [isReceiptAlreadySent]
  · intro aid iid attid url em fn bytes s hv h
    refine ⟨?_, ?_, ?_⟩ <;>
      simp [processAttachment, isReceiptAlreadySent, hv,
        registerSentReceipt, dbInsertReceipt, h]

/-- A valid PDF byte string: the magic marker padded to 1KB. -/
theorem validateReceipt_magic_pad :
    validateReceipt (pdfMagic ++ List.replicate 1020 0) = true := by
  have hp : List.isPrefixOf pdfMagic (pdfMagic ++ List.replicate 1020 0) =
      true := by
    rw [List.isPrefixOf_iff_prefix]
    exact List.prefix_append _ _
  have hlen : (pdfMagic ++ List.replicate 1020 0).length = 1024 := by
    rw [List.length_append, List.length_replicate]
    rfl
  unfold validateReceipt
  rw [hlen, hp]
  norm_num

/-- Witness for C10: a concrete already-delivered triple whose lookup
fails; the pipeline sends a duplicate email and the ledger stays with one
row. -/
theorem c10_lookup_failure_fails_open_witness :
    validateReceipt (pdfMagic ++ List.replicate 1020 0) = true ∧
    hasTriple [⟨1, 2, 3, 4⟩] 1 2 3 = true ∧
    (processAttachment
        ⟨true, some (pdfMagic ++ List.replicate 1020 0, 0), some 9, true,
         none⟩ 1 ⟨some 2, some 7, some 3⟩ ⟨[⟨1, 2, 3, 4⟩], 0⟩).1.emailsSent =
      0 + 1 :=
  ⟨validateReceipt_magic_pad, by decide,
   (c10_lookup_failure_fails_open.2 1 2 7 3 9 0
     (pdfMagic ++ List.replicate 1020 0) ⟨[⟨1, 2, 3, 4⟩], 0⟩
     validateReceipt_magic_pad (by decide)).2.1⟩

/-- Characterization of the retry loop: some attempt n is the final one; all
earlier attempts returned 429; the waits are the tenacity waits of the
earlier attempts; the outcome reraises the rate-limit error exactly when the
attempt budget is exhausted on a 429, and otherwise reflects attempt n. -/
theorem requestLoop_char (rs : Nat → HttpResp) :
    ∀ (rem att : Nat), ∃ n, att ≤ n ∧ n ≤ att + rem ∧
      (∀ j, att ≤ j → j < n → (rs j).code = 429) ∧
      (requestLoop rs att rem).2 =
        (List.range' att (n - att)).map requestWait ∧
      (((rs n).code = 429 ∧ n = att + rem ∧
        (requestLoop rs att rem).1 = .rateLimited n) ∨
       ((rs n).code ≠ 429 ∧
        (requestLoop rs att rem).1 =
          (if 400 ≤ (rs n).code then .httpError (rs n).code n
           else .success (rs n).body n))) := by
  intro rem
  induction rem with
  | zero =>
    intro att
    refine ⟨att, le_refl att, by omega, fun j h1 h2 => by omega, ?_, ?_⟩
    · by_cases h : (rs att).code = 429
      · simp [requestLoop, h]
      · by_cases h2 : 400 ≤ (rs att).code <;> simp [requestLoop, h, h2]
    · by_cases h : (rs att).code = 429
      · exact Or.inl ⟨h, rfl, by simp [requestLoop, h]⟩
      · refine Or.inr ⟨h, ?_⟩
        by_cases h2 : 400 ≤ (rs att).code <;> simp [requestLoop, h, h2]
  | succ rem ih =>
    intro att
    by_cases h : (rs att).code = 429
    · obtain ⟨n, hn1, hn2, hj, hw, hd⟩ := ih (att + 1)
      have hstep : requestLoop rs att (rem + 1) =
          ((requestLoop rs (att + 1) rem).1,
           requestWait att :: (requestLoop rs (att + 1) rem).2) := by
        simp [requestLoop, h]
      refine ⟨n, by omega, by omega, ?_, ?_, ?_⟩
      · intro j hj1 hj2
        rcases Nat.eq_or_lt_of_le hj1 with rfl | hlt
        · exact h
        · exact hj j hlt hj2
      · have hs : n - att = (n - (att + 1)) + 1 := by omega
        rw [hstep, hs, List.range'_succ, List.map_cons]
        simp only [hw]
      · rcases hd with ⟨hc, hne, ho⟩ | ⟨hc, ho⟩
        · exact Or.inl ⟨hc, by omega, by rw [hstep]; exact ho⟩
        · exact Or.inr ⟨hc, by rw [hstep]; exact ho⟩
    · refine ⟨att, le_refl att, by omega, fun j h1 h2 => by omega, ?_, ?_⟩
      · by_cases h2 : 400 ≤ (rs att).code <;> simp [requestLoop, h, h2]
      · refine Or.inr ⟨h, ?_⟩
        by_cases h2 : 400 ≤ (rs att).code <;> simp [requestLoop, h, h2]

/-- Claim C7 (amended): the HTTP request wrapper retries only on HTTP 429,
up to 5 total attempts, with exponential backoff waits of min(2 to the n,
16) seconds after the n-th attempt, i.e. 2s, 4s, 8s, 16s, doubling and
capped at 16 seconds per wait (the first wait is 2 seconds, not 1); every
other HTTP error status propagates to the caller immediately without any
retry. -/
theorem c7_retry_policy :
    (∀ rs : Nat → HttpResp, ∃ n, 1 ≤ n ∧ n ≤ 5 ∧
      (∀ j, 1 ≤ j → j < n → (rs j).code = 429) ∧
      (clientRequest rs).2 = (List.range' 1 (n - 1)).map requestWait ∧
      (((rs n).code = 429 ∧ n = 5 ∧
        (clientRequest rs).1 = .rateLimited n) ∨
       ((rs n).code ≠ 429 ∧
        (clientRequest rs).1 =
          (if 400 ≤ (rs n).code then .httpError (rs n).code n
           else .success (rs n).body n)))) ∧
    (∀ k, 1 ≤ k → requestWait k = min (2 ^ k) 16) ∧
    (∀ rs : Nat → HttpResp, (rs 1).code ≠ 429 → 400 ≤ (rs 1).code →
      clientRequest rs = (.httpError (rs 1).code 1, [])) := by
  refine ⟨?_, ?_, ?_⟩
  · intro rs
    obtain ⟨n, hn1, hn2, hj, hw, hd⟩ := requestLoop_char rs 4 1
    exact ⟨n, hn1, by omega, hj, hw, by
      rcases hd with ⟨hc, hne, ho⟩ | ⟨hc, ho⟩
      · exact Or.inl ⟨hc, by omega, ho⟩
      · exact Or.inr ⟨hc, ho⟩⟩
  · intro k hk
    have h1 : 2 ≤ 2 ^ k := by
      calc 2 = 2 ^ 1 := by norm_num
      _ ≤ 2 ^ k := Nat.pow_le_pow_right (by norm_num) hk
    simp only [requestWait, tenacityWaitExp, one_mul]
    omega
  · intro rs h1 h2
    simp [clientRequest, requestLoop, h1, h2]

/-- Witness for C7 at a concrete non-retryable server error. -/
theorem c7_retry_policy_witness :
    ((500 : Nat) ≠ 429 ∧ (400 : Nat) ≤ 500) ∧
    clientRequest (fun _ => ⟨500, 0⟩) = (.httpError 500 1, []) :=
  ⟨⟨by decide, by decide⟩,
   c7_retry_policy.2.2 (fun _ => ⟨500, 0⟩) (by decide) (by decide)⟩

/-- Counterexample for C7 as stated: the backoff does not start at 1 second.
With every attempt limited (HTTP 429) the four waits are 2, 4, 8 and 16
seconds, so the first wait is 2 seconds. -/
theorem c7_backoff_counterexample :
    (clientRequest (fun _ => ⟨429, 0⟩)).2 = [2, 4, 8, 16] ∧
    (clientRequest (fun _ => ⟨429, 0⟩)).2.head? ≠ some 1 := by
  constructor <;> decide

/-- Claim C3: the receipt-URL validator rejects every URL with a non-HTTPS
scheme, every URL with an absent hostname, every URL whose hostname neither
equals nor is a subdomain of an allow-listed provider domain (including
suffix-spoofs), and every literal IP-address host that is loopback, private,
multicast, or reserved, in both IPv4 and IPv6 form; it accepts HTTPS URLs
whose hostname is an allow-listed provider domain. -/
theorem c3_ssrf_validation :
    (∀ u : ParsedUrl, u.scheme ≠ "https".data →
      validateReceiptUrl u = false) ∧
    (∀ scheme : List Char, validateReceiptUrl ⟨scheme, none⟩ = false) ∧
    (∀ h : List Char, domainAllowed h = false →
      validateReceiptUrl ⟨"https".data, some h⟩ = false) ∧
    (∀ (h : List Char) (ip : IPAddr), parseIP h = some ip →
      (ipIsLoopback ip || ipIsPrivate ip || ipIsMulticast ip ||
        ipIsReserved ip) = true →
      validateReceiptUrl ⟨"https".data, some h⟩ = false) ∧
    (∀ h : List Char, h ∈ allowedReceiptDomains →
      validateReceiptUrl ⟨"https".data, some h⟩ = true) := by
  refine ⟨?_, ?_, ?_, ?_, ?_⟩
  · intro u hu
    simp [validateReceiptUrl, hu]
  · intro scheme
    by_cases hs : scheme = "https".data <;> simp [validateReceiptUrl, hs]
  · intro h hd
    simp [validateReceiptUrl, hd]
  · intro h ip hp hbad
    have hsafe : isIpAddressSafe h = false := by
      simp only [isIpAddressSafe, hp]
      by_cases h1 : ipIsLoopback ip <;> by_cases h2 : ipIsPrivate ip <;>
        by_cases h3 : ipIsMulticast ip <;> by_cases h4 : ipIsReserved ip <;>
        simp_all
    by_cases hda : domainAllowed h <;>
      simp [validateReceiptUrl, hda, hsafe]
  · intro h hm
    simp only [allowedReceiptDomains, List.mem_cons,
      List.not_mem_nil, or_false] at hm
    rcases hm with rfl | rfl | rfl | rfl | rfl <;> decide

/-- Witness for C3 at a concrete wrong-scheme URL. -/
theorem c3_ssrf_validation_witness :
    "http".data ≠ "https".data ∧
    validateReceiptUrl ⟨"http".data, some "api.contaazul.com".data⟩ =
      false :=
  ⟨by decide,
   c3_ssrf_validation.1 ⟨"http".data, some "api.contaazul.com".data⟩
     (by decide)⟩

/-- Characterization of the pagination loop started at any page: some final
page k at most 100 is reached; the requests are exactly the pages from the
start page through k in order; the result is the concatenation of those
pages' items; no page before k stops the loop; and k stops the loop unless
it is the hard cap 100. -/
theorem getReceivablesLoop_spec {α : Type} (pages : Nat → List α)
    (ps : Nat) :
    ∀ (fuel start : Nat), start + fuel = 101 → 1 ≤ fuel →
    ∃ k, start ≤ k ∧ k ≤ 100 ∧
      (getReceivablesLoop pages ps start fuel).2 =
        List.range' start (k + 1 - start) ∧
      (getReceivablesLoop pages ps start fuel).1 =
        ((List.range' start (k + 1 - start)).map pages).flatten ∧
      (∀ j, start ≤ j → j < k → ¬ pageStops pages ps j) ∧
      (pageStops pages ps k ∨ k = 100) := by
  intro fuel
  induction fuel with
  | zero =>
    intro start h1 h2
    omega
  | succ fuel ih =>
    intro start h1 h2
    by_cases he : (pages start).length = 0
    · have he' : pages start = [] := List.length_eq_zero.mp he
      have hr : start + 1 - start = 1 := by omega
      refine ⟨start, le_refl _, by omega, ?_, ?_,
        fun j hj1 hj2 => by omega, Or.inl (Or.inl he)⟩
      · simp [getReceivablesLoop, he, hr, List.range'_one]
      · simp [getReceivablesLoop, he, he', hr, List.range'_one]
    · by_cases hs : (pages start).length < ps
      · have hr : start + 1 - start = 1 := by omega
        refine ⟨start, le_refl _, by omega, ?_, ?_,
          fun j hj1 hj2 => by omega, Or.inl (Or.inr hs)⟩
        · simp [getReceivablesLoop, he, hs, hr, List.range'_one]
        · simp [getReceivablesLoop, he, hs, hr, List.range'_one]
      · by_cases hc : 100 < start + 1
        · have hr : start + 1 - start = 1 := by omega
          have hstart : start = 100 := by omega
          refine ⟨start, le_refl _, by omega, ?_, ?_,
            fun j hj1 hj2 => by omega, Or.inr hstart⟩
          · simp [getReceivablesLoop, he, hs, hc, hr, List.range'_one]
          · simp [getReceivablesLoop, he, hs, hc, hr, List.range'_one]
        · obtain ⟨k, hk1, hk2, hw, hi, hmin, hstop⟩ :=
            ih (start + 1) (by omega) (by omega)
          have hstep : getReceivablesLoop pages ps start (fuel + 1) =
              (pages start ++ (getReceivablesLoop pages ps (start + 1) fuel).1,
               start :: (getReceivablesLoop pages ps (start + 1) fuel).2) := by
            simp [getReceivablesLoop, he, hs, hc]
          have hr : k + 1 - start = (k - start) + 1 := by omega
          have hr2 : k + 1 - (start + 1) = k - start := by omega
          refine ⟨k, by omega, hk2, ?_, ?_, ?_, hstop⟩
          · rw [hstep, hr, List.range'_succ]
            show start :: _ = _
            rw [hw, hr2]
          · rw [hstep, hr, List.range'_succ, List.map_cons,
              List.flatten_cons]
            show pages start ++ _ = _
            rw [hi, hr2]
          · intro j hj1 hj2
            rcases Nat.eq_or_lt_of_le hj1 with rfl | hlt
            · rintro (h0 | hlt2)
              · exact he h0
              · exact hs hlt2
            · exact hmin j hlt hj2

/-- Claim C6: the paginated receivables fetch requests pages in order
starting from page 1 and returns the exact concatenation, in order, of every
requested page's items; it stops after the first page that is empty or
contains fewer items than the requested page size, issuing no request beyond
that page, and never requests more than 100 pages in total. -/
theorem c6_pagination :
    (∀ {α : Type} (pages : Nat → List α) (ps : Nat), ∃ k, 1 ≤ k ∧ k ≤ 100 ∧
      (getReceivables pages ps).2 = List.range' 1 k ∧
      (getReceivables pages ps).1 = ((List.range' 1 k).map pages).flatten) ∧
    (∀ {α : Type} (pages : Nat → List α) (ps : Nat),
      (getReceivables pages ps).2.length ≤ 100) ∧
    (∀ {α : Type} (pages : Nat → List α) (ps k0 : Nat), 0 < ps → 1 ≤ k0 →
      k0 ≤ 100 → (pages k0).length < ps →
      (∀ j, 1 ≤ j → j < k0 → ¬ (pages j).length < ps) →
      (getReceivables pages ps).2 = List.range' 1 k0 ∧
      (∀ p ∈ (getReceivables pages ps).2, p ≤ k0) ∧
      (getReceivables pages ps).1 =
        ((List.range' 1 k0).map pages).flatten) := by
  have main : ∀ {α : Type} (pages : Nat → List α) (ps : Nat), ∃ k,
      1 ≤ k ∧ k ≤ 100 ∧
      (getReceivables pages ps).2 = List.range' 1 k ∧
      (getReceivables pages ps).1 = ((List.range' 1 k).map pages).flatten ∧
      (∀ j, 1 ≤ j → j < k → ¬ pageStops pages ps j) ∧
      (pageStops pages ps k ∨ k = 100) := by
    intro α pages ps
    obtain ⟨k, hk1, hk2, hw, hi, hmin, hstop⟩ :=
      getReceivablesLoop_spec pages ps 100 1 (by omega) (by omega)
    have hr : k + 1 - 1 = k := by omega
    rw [hr] at hw hi
    exact ⟨k, hk1, hk2, hw, hi, hmin, hstop⟩
  refine ⟨?_, ?_, ?_⟩
  · intro α pages ps
    obtain ⟨k, hk1, hk2, hw, hi, _, _⟩ := main pages ps
    exact ⟨k, hk1, hk2, hw, hi⟩
  · intro α pages ps
    obtain ⟨k, hk1, hk2, hw, hi, _, _⟩ := main pages ps
    rw [hw, List.length_range']
    exact hk2
  · intro α pages ps k0 hps hk01 hk02 hshort hminc
    obtain ⟨k, hk1, hk2, hw, hi, hmin, hstop⟩ := main pages ps
    have hkk : k = k0 := by
      rcases Nat.lt_trichotomy k k0 with hlt | heq | hgt
      · exfalso
        rcases hstop with hstop | rfl
        · have : (pages k).length < ps := by
            rcases hstop with h0 | h0 <;> omega
          exact hminc k hk1 hlt this
        · omega
      · exact heq
      · exfalso
        exact hmin k0 hk01 hgt (Or.inr hshort)
    subst hkk
    refine ⟨hw, ?_, hi⟩
    intro p hp
    rw [hw, List.mem_range'_1] at hp
    omega

/-- Witness for C6 at a concrete three-page provider. -/
theorem c6_pagination_witness :
    0 < 2 ∧
    (getReceivables (fun p => if p ≤ 2 then [p, p] else [9]) 2).2 =
      List.range' 1 3 :=
  ⟨by decide,
   (c6_pagination.2.2 (fun p => if p ≤ 2 then [p, p] else [9]) 2 3
     (by decide) (by decide) (by decide) (by decide)
     (fun j hj1 hj2 => by interval_cases j <;> simp)).1⟩

/-! ## Helper lemmas on the checkpoint table -/

theorem find?_append_of_none {p : FinancialCheckpoint → Bool}
    (l1 l2 : List FinancialCheckpoint) (h : l1.find? p = none) :
    (l1 ++ l2).find? p = l2.find? p := by
  induction l1 with
  | nil => rfl
  | cons hd tl ih =>
    rw [List.find?_cons] at h
    cases hp : p hd with
    | true =>
      rw [hp] at h
      cases h
    | false =>
      rw [hp] at h
      rw [List.cons_append, List.find?_cons, hp]
      exact ih h

theorem find?_update (nowT : Int) (aid : Nat)
    (db : List FinancialCheckpoint) :
    (updateCheckpoint nowT aid db).find? (fun c => c.accountId == aid) =
      (db.find? (fun c => c.accountId == aid)).map
        (fun c => { c with lastProcessedChangedAt := some nowT }) := by
  induction db with
  | nil => rfl
  | cons hd tl ih =>
    cases h : hd.accountId == aid with
    | true =>
      have hupd : (({ hd with lastProcessedChangedAt := some nowT } :
          FinancialCheckpoint).accountId == aid) = true := h
      simp only [updateCheckpoint, List.map_cons, h, if_true,
        List.find?_cons, hupd]
      rfl
    | false =>
      simp only [updateCheckpoint, List.map_cons, h, Bool.false_eq_true,
        if_false, List.find?_cons]
      exact ih

theorem checkpointValue_update (nowT : Int) (aid : Nat)
    (db : List FinancialCheckpoint) :
    checkpointValue (updateCheckpoint nowT aid db) aid =
      (checkpointValue db aid).map (fun _ => some nowT) := by
  unfold checkpointValue
  rw [find?_update]
  cases db.find? (fun c => c.accountId == aid) <;> rfl

theorem checkpointValue_getOrCreate (t : Int) (aid : Nat)
    (db : List FinancialCheckpoint) :
    ∃ w, checkpointValue (getOrCreateCheckpoint t aid db).2 aid = some w := by
  cases hf : db.find? (fun c => c.accountId == aid) with
  | some cp =>
    exact ⟨cp.lastProcessedChangedAt,
      by simp [getOrCreateCheckpoint, checkpointValue, hf]⟩
  | none =>
    refine ⟨some (t - thirtyDays), ?_⟩
    simp only [getOrCreateCheckpoint, hf, checkpointValue]
    rw [find?_append_of_none _ _ hf]
    simp [List.find?_cons]

theorem processAccountCycle_db (env : CycleEnv) (t : Int) (aid : Nat)
    (db : List FinancialCheckpoint) :
    (processAccountCycle env t aid db).2 = db ∨
    (processAccountCycle env t aid db).2 =
      (getOrCreateCheckpoint t aid db).2 ∨
    (processAccountCycle env t aid db).2 =
      updateCheckpoint t aid (getOrCreateCheckpoint t aid db).2 := by
  unfold processAccountCycle
  by_cases h1 : !env.tokenFound
  · simp [h1]
  · by_cases h2 : !env.decryptOk
    · simp [h1, h2]
    · by_cases h3 : env.tokenExpired && !env.refreshOk
      · simp [h1, h2, h3]
      · simp only [h1, h2, h3, Bool.false_eq_true, if_false]
        cases env.fetchResult with
        | none => simp
        | some rs =>
          cases rs with
          | nil => simp
          | cons a l => simp

theorem processAccountCycle_value_step (env : CycleEnv) (t : Int) (aid : Nat)
    (db : List FinancialCheckpoint) (v : Option Int)
    (h : checkpointValue db aid = some v) :
    checkpointValue (processAccountCycle env t aid db).2 aid = some v ∨
    checkpointValue (processAccountCycle env t aid db).2 aid =
      some (some t) := by
  have h' : (db.find? (fun c => c.accountId == aid)).map
      (fun c => c.lastProcessedChangedAt) = some v := h
  obtain ⟨cp, hcp, hval⟩ := Option.map_eq_some'.mp h'
  have hgo : (getOrCreateCheckpoint t aid db).2 = db := by
    simp [getOrCreateCheckpoint, hcp]
  rcases processAccountCycle_db env t aid db with hdb | hdb | hdb
  · rw [hdb]
    exact Or.inl h
  · rw [hdb, hgo]
    exact Or.inl h
  · rw [hdb, hgo, checkpointValue_update, h]
    exact Or.inr rfl

theorem chainLe_of_le {a b : Int} {l : List Int} (hab : a ≤ b)
    (h : List.Chain' (· ≤ ·) (b :: l)) : List.Chain' (· ≤ ·) (a :: l) := by
  cases l with
  | nil => exact List.chain'_singleton a
  | cons c l =>
    rw [List.chain'_cons] at h ⊢
    exact ⟨le_trans hab h.1, h.2⟩

/-- Claim C2: for every account, the checkpoint watermark is monotonically
non-decreasing across polling cycles; a cycle that aborts before the
receivables fetch completes (missing credential, decryption failure, failed
token refresh, or fetch error) leaves the checkpoint unchanged; and a
completed cycle sets the watermark to the cycle's now(UTC). -/
theorem c2_checkpoint_monotonic :
    (∀ (env : CycleEnv) (t : Int) (aid : Nat)
      (db : List FinancialCheckpoint),
      env.tokenFound = false ∨ env.decryptOk = false ∨
        (env.tokenExpired = true ∧ env.refreshOk = false) →
      processAccountCycle env t aid db = ((0, 1), db)) ∧
    (∀ (env : CycleEnv) (t : Int) (aid : Nat)
      (db : List FinancialCheckpoint) (cp : FinancialCheckpoint),
      env.fetchResult = none →
      db.find? (fun c => c.accountId == aid) = some cp →
      (processAccountCycle env t aid db).2 = db) ∧
    (∀ (env : CycleEnv) (t : Int) (aid : Nat)
      (db : List FinancialCheckpoint) (rs : List Nat),
      env.tokenFound = true → env.decryptOk = true →
      (env.tokenExpired = false ∨ env.refreshOk = true) →
      env.fetchResult = some rs →
      checkpointValue (processAccountCycle env t aid db).2 aid =
        some (some t)) ∧
    (∀ (cycles : List (CycleEnv × Int)) (db : List FinancialCheckpoint)
      (aid : Nat) (v0 : Int),
      checkpointValue db aid = some (some v0) →
      List.Chain' (· ≤ ·) (v0 :: cycles.map Prod.snd) →
      ∃ v1, checkpointValue (runCycles aid cycles db) aid =
        some (some v1) ∧ v0 ≤ v1) := by
  refine ⟨?_, ?_, ?_, ?_⟩
  · intro env t aid db h
    rcases h with h | h | ⟨h1, h2⟩
    · simp [processAccountCycle, h]
    · by_cases htf : env.tokenFound <;> simp [processAccountCycle, htf, h]
    · by_cases htf : env.tokenFound <;> by_cases hdc : env.decryptOk <;>
        simp [processAccountCycle, htf, hdc, h1, h2]
  · intro env t aid db cp hf hcp
    by_cases htf : env.tokenFound <;> by_cases hdc : env.decryptOk <;>
      by_cases hex : env.tokenExpired <;> by_cases hrf : env.refreshOk <;>
      simp [processAccountCycle, htf, hdc, hex, hrf, hf,
        getOrCreateCheckpoint, hcp]
  · intro env t aid db rs htf hdc hok hf
    obtain ⟨w, hw⟩ := checkpointValue_getOrCreate t aid db
    have hg : (env.tokenExpired && !env.refreshOk) = false := by
      rcases hok with h1 | h1 <;> simp [h1]
    cases rs with
    | nil =>
      simp only [processAccountCycle, htf, hdc, hg, Bool.not_true,
        Bool.false_eq_true, if_false, hf]
      rw [checkpointValue_update, hw]
      rfl
    | cons a l =>
      simp only [processAccountCycle, htf, hdc, hg, Bool.not_true,
        Bool.false_eq_true, if_false, hf]
      rw [checkpointValue_update, hw]
      rfl
  · intro cycles
    induction cycles with
    | nil =>
      intro db aid v0 h _
      exact ⟨v0, h, le_refl v0⟩
    | cons c rest ih =>
      obtain ⟨env, t⟩ := c
      intro db aid v0 h hch
      rw [List.map_cons, List.chain'_cons] at hch
      have hstep := processAccountCycle_value_step env t aid db (some v0) h
      rcases hstep with hnew | hnew
      · obtain ⟨v1, hv1, hle⟩ := ih (processAccountCycle env t aid db).2 aid
          v0 hnew (chainLe_of_le hch.1 hch.2)
        exact ⟨v1, hv1, hle⟩
      · obtain ⟨v1, hv1, hle⟩ := ih (processAccountCycle env t aid db).2 aid
          t hnew hch.2
        exact ⟨v1, hv1, le_trans hch.1 hle⟩

/-- Witness for C2 at a concrete aborting cycle (missing credential). -/
theorem c2_checkpoint_monotonic_witness :
    (⟨false, true, false, false, none, fun _ => false⟩ :
      CycleEnv).tokenFound = false ∧
    processAccountCycle ⟨false, true, false, false, none, fun _ => false⟩
      0 0 [⟨0, some 5⟩] = ((0, 1), [⟨0, some 5⟩]) :=
  ⟨rfl,
   c2_checkpoint_monotonic.1 ⟨false, true, false, false, none,
     fun _ => false⟩ 0 0 [⟨0, some 5⟩] (Or.inl rfl)⟩

/-- Claim C1: for a fresh (account, installment, attachment URL) triple,
running the full send pipeline twice with the same inputs results in exactly
one SentReceipt ledger row for the triple and exactly one successful email
dispatch (the second run stops at the ledger check and downloads nothing);
the ledger is consulted before the download step; and the SentReceipt row is
written only after the mailer reports a successful send, never before. -/
theorem c1_idempotent_delivery :
    (∀ (aid iid attid url em fn : Nat) (bytes : List Nat)
      (s : PipelineState),
      validateReceipt bytes = true →
      hasTriple s.ledger aid iid url = false →
      tripleCount (processAttachment
          ⟨false, some (bytes, fn), some em, true, none⟩ aid
          ⟨some iid, some attid, some url⟩
          (processAttachment ⟨false, some (bytes, fn), some em, true, none⟩
            aid ⟨some iid, some attid, some url⟩ s).1).1.ledger aid iid url
        = 1 ∧
      (processAttachment ⟨false, some (bytes, fn), some em, true, none⟩ aid
          ⟨some iid, some attid, some url⟩
          (processAttachment ⟨false, some (bytes, fn), some em, true, none⟩
            aid ⟨some iid, some attid, some url⟩ s).1).1.emailsSent =
        s.emailsSent + 1 ∧
      (processAttachment ⟨false, some (bytes, fn), some em, true, none⟩ aid
          ⟨some iid, some attid, some url⟩
          (processAttachment ⟨false, some (bytes, fn), some em, true, none⟩
            aid ⟨some iid, some attid, some url⟩ s).1).2 =
        [PipelineEvent.ledgerCheck]) ∧
    (∀ (env : AttachmentEnv) (aid : Nat) (att : AttachmentInput)
      (s : PipelineState),
      PipelineEvent.download ∈ (processAttachment env aid att s).2 →
      (processAttachment env aid att s).2.head? =
        some PipelineEvent.ledgerCheck) ∧
    (∀ (env : AttachmentEnv) (aid : Nat) (att : AttachmentInput)
      (s : PipelineState),
      (processAttachment env aid att s).1.ledger ≠ s.ledger →
      env.mailerOk = true ∧
      (processAttachment env aid att s).2 =
        [PipelineEvent.ledgerCheck, PipelineEvent.download,
         PipelineEvent.validateBytes, PipelineEvent.sendAttempt true,
         PipelineEvent.recordReceipt]) := by
  refine ⟨?_, ?_, ?_⟩
  · intro aid iid attid url em fn bytes s hv h
    have h1 : processAttachment
        ⟨false, some (bytes, fn), some em, true, none⟩ aid
        ⟨some iid, some attid, some url⟩ s =
        (⟨s.ledger ++ [⟨aid, iid, url, em⟩], s.emailsSent + 1⟩,
         [.ledgerCheck, .download, .validateBytes, .sendAttempt true,
          .recordReceipt]) := by
      simp [processAttachment, isReceiptAlreadySent, h, hv,
        registerSentReceipt, dbInsertReceipt]
    rw [h1]
    have h2 : processAttachment
        ⟨false, some (bytes, fn), some em, true, none⟩ aid
        ⟨some iid, some attid, some url⟩
        ⟨s.ledger ++ [⟨aid, iid, url, em⟩], s.emailsSent + 1⟩ =
        (⟨s.ledger ++ [⟨aid, iid, url, em⟩], s.emailsSent + 1⟩,
         [.ledgerCheck]) := by
      simp [processAttachment, isReceiptAlreadySent, hasTriple_append_self]
    rw [h2]
    refine ⟨?_, rfl, rfl⟩
    rw [tripleCount_append, tripleCount_eq_zero s.ledger _ _ _ h,
      tripleCount_singleton_self]
  · intro env aid att s h
    obtain ⟨io, ao, uo⟩ := att
    obtain ⟨qf, dr, de, mk, cr⟩ := env
    cases io with
    | none => simp [processAttachment] at h
    | some iid =>
      cases ao with
      | none => simp [processAttachment] at h
      | some attid =>
        cases uo with
        | none => simp [processAttachment] at h
        | some url =>
          by_cases ha : isReceiptAlreadySent qf s.ledger aid iid url
          · simp [processAttachment, ha]
          · cases dr with
            | none => simp [processAttachment, ha]
            | some pr =>
              obtain ⟨pb, pf⟩ := pr
              by_cases hvv : validateReceipt pb
              · cases de with
                | none => simp [processAttachment, ha, hvv]
                | some e =>
                  by_cases hmk : mk <;>
                    simp [processAttachment, ha, hvv, hmk]
              · simp [processAttachment, ha, hvv]
  · intro env aid att s hne
    obtain ⟨io, ao, uo⟩ := att
    obtain ⟨qf, dr, de, mk, cr⟩ := env
    cases io with
    | none => simp [processAttachment] at hne
    | some iid =>
      cases ao with
      | none => simp [processAttachment] at hne
      | some attid =>
        cases uo with
        | none => simp [processAttachment] at hne
        | some url =>
          by_cases ha : isReceiptAlreadySent qf s.ledger aid iid url
          · simp [processAttachment, ha] at hne
          · cases dr with
            | none => simp [processAttachment, ha] at hne
            | some pr =>
              obtain ⟨pb, pf⟩ := pr
              by_cases hvv : validateReceipt pb
              · cases de with
                | none => simp [processAttachment, ha, hvv] at hne
                | some e =>
                  by_cases hmk : mk
                  · exact ⟨hmk, by simp [processAttachment, ha, hvv, hmk]⟩
                  · simp [processAttachment, ha, hvv, hmk] at hne
              · simp [processAttachment, ha, hvv] at hne

/-- Witness for C1 at a concrete fresh triple and valid PDF. -/
theorem c1_idempotent_delivery_witness :
    hasTriple ([] : List LedgerRow) 1 2 4 = false ∧
    tripleCount (processAttachment
        ⟨false, some (pdfMagic ++ List.replicate 1020 0, 0), some 9, true,
         none⟩ 1 ⟨some 2, some 3, some 4⟩
        (processAttachment
          ⟨false, some (pdfMagic ++ List.replicate 1020 0, 0), some 9, true,
           none⟩ 1 ⟨some 2, some 3, some 4⟩ ⟨[], 0⟩).1).1.ledger 1 2 4 = 1 :=
  ⟨rfl,
   (c1_idempotent_delivery.1 1 2 3 4 9 0 (pdfMagic ++ List.replicate 1020 0)
     ⟨[], 0⟩ validateReceipt_magic_pad rfl).1⟩

end Payflow
